import Mathlib

/-!
# Verification of the geotargeting pathway search (ernestocullari/mcp-server)

The repository ships one tool, `fetch-geotargeting-tool`, which searches a
spreadsheet (header row plus data rows of cell strings) for advertising
targeting pathways.  The specification's design notes record that the project
has two divergent variants of this tool:

* the **column-priority Pathway Resolver** (exact-phrase score 100,
  proportional word-overlap score up to 80, relevance threshold 30, column
  priority Description → Demographic → Grouping → Category, top 3 pathways,
  confidence labels High/Medium/Low) — the variant the spec formalizes, whose
  priority order is also echoed by the agent system prompt in `src/index.js`;

* the **global-scoring variant** implemented in
  `src/tools/fetch-geotargeting-tool.js` (additive per-cell term scores
  5/8/12 with keyword boosts, threshold "score > 0", top 5).

This file embeds both: the resolver is modelled from the spec (its
implementation is not among the repository source files), and the
global-scoring tool is translated directly from
`src/tools/fetch-geotargeting-tool.js`.
-/

namespace Geo

/-- JS `haystack.includes(needle)`: `containsStr s pat` is `true` iff `pat`
occurs in `s` as a contiguous substring. -/
def containsStr (s pat : String) : Bool :=
  decide (pat.toList <:+: s.toList)

/-- JS `s.toLowerCase()`, modelled characterwise (ASCII case folding, the
same folding `String.toLower` performs, but by structural recursion over the
character list so that it computes by reduction). -/
def lowerStr (s : String) : String :=
  String.mk (s.data.map Char.toLower)

/-- Helper for `splitSpaces`: split a character list at every space,
keeping empty fragments, exactly like JS `s.split(' ')`. -/
def splitChars : List Char → List Char → List (List Char)
  | [], acc => [acc.reverse]
  | c :: cs, acc =>
    if c = ' ' then acc.reverse :: splitChars cs []
    else splitChars cs (c :: acc)

/-- JS `s.split(' ')`: split at every single space, keeping empty pieces. -/
def splitSpaces (s : String) : List String :=
  (splitChars s.data []).map String.mk

/-- `true` iff the string is empty or consists only of whitespace —
the rows that JS `cell.trim() === ''` would skip. -/
def isBlank (s : String) : Bool :=
  s.data.all Char.isWhitespace

/-! ## The column-priority Pathway Resolver (modelled from the spec) -/

namespace Resolver

/-- Modelled from the spec: the query words that participate in word-overlap
scoring — the implementation of the column-priority Pathway Resolver is not
among the repository source files.  Spec §4.1 step 2: "split the query into
words of length > 2 (short stop-word-like tokens excluded from scoring)". -/
def qualifyingWords (query : String) : List String :=
  (splitSpaces (lowerStr query)).filter (fun w => w.length > 2)

/-- Modelled from the spec: the score function of the column-priority Pathway
Resolver (spec §4.1 step 2), absent from the repository source files.
Lowercase both sides; exact contiguous containment of the whole query gives
100; otherwise (matched qualifying words / all qualifying words) × 80, and 0
when no qualifying word matches. -/
def score (cellText query : String) : ℚ :=
  let cell := lowerStr cellText
  if containsStr cell (lowerStr query) then 100
  else
    let ws := qualifyingWords query
    let m := (ws.filter (fun w => containsStr cell w)).length
    if 0 < m then mkRat (m * 80) ws.length else 0

/-- The claim's reference definition of the score, written out exactly as the
spec sentence orders the cases, to be compared with `score`. -/
def scoreRef (cellText query : String) : ℚ :=
  if containsStr (lowerStr cellText) (lowerStr query) then 100
  else if qualifyingWords query = [] ∨
      (qualifyingWords query).filter (fun w => containsStr (lowerStr cellText) w) = [] then 0
  else (((qualifyingWords query).filter
      (fun w => containsStr (lowerStr cellText) w)).length : ℚ) /
    ((qualifyingWords query).length : ℚ) * 80

/-- A tabular dataset: a header row naming the columns plus data rows. -/
structure Dataset where
  headers : List String
  rows : List (List String)
deriving DecidableEq, Repr

/-- Modelled from the spec: a match candidate of the column-priority Pathway
Resolver (spec §3) — category/grouping/demographic/matched text, the searched
column role, the score and the row position. -/
structure Candidate where
  category : String
  grouping : String
  demographic : String
  matchedText : String
  matchedColumn : String
  score : ℚ
  row : Nat
deriving DecidableEq, Repr

/-- The outcome of one resolution call (spec §6/§7): configuration failure
naming the missing columns, the distinct no-data outcome, a ranked match
list with its column role and confidence label, or the no-match outcome with
suggestions. -/
inductive ResolutionResult where
  | configError (missing : List String) : ResolutionResult
  | noData : ResolutionResult
  | matches (matchedColumn : String) (pathways : List Candidate)
      (confidence : String) : ResolutionResult
  | noMatch (suggestions : List String) : ResolutionResult
deriving DecidableEq, Repr

/-- Success flag of a resolution outcome: configuration failures and the
no-data outcome are failures; matches and the no-match outcome are not. -/
def ResolutionResult.success : ResolutionResult → Bool
  | .configError _ => false
  | .noData => false
  | .matches _ _ _ => true
  | .noMatch _ => true

/-- The matched column role of an outcome, `"none"` when there is none. -/
def ResolutionResult.matchedColumn : ResolutionResult → String
  | .matches col _ _ => col
  | _ => "none"

/-- The ranked pathway list of an outcome, `[]` when there is none. -/
def ResolutionResult.pathways : ResolutionResult → List Candidate
  | .matches _ l _ => l
  | _ => []

/-- Modelled from the spec: column-role resolution (spec §4.1 step 1) — the
first header whose lowercased text contains the role name as a substring. -/
def findRole (headers : List String) (role : String) : Option Nat :=
  headers.findIdx? (fun h => containsStr (lowerStr h) role)

/-- The four required column roles, in the order the spec lists them. -/
def requiredRoles : List String :=
  ["Category", "Grouping", "Demographic", "Description"]

/-- The role names whose column could not be resolved from the headers. -/
def missingColumns (headers : List String) : List String :=
  requiredRoles.filter (fun r => (findRole headers (lowerStr r)).isNone)

/-- Modelled from the spec: the row scan of the column-priority Pathway
Resolver (spec §4.1 step 3), absent from the repository source files.  Scan
every data row of the active column `col`; skip rows whose cell there is
empty or whitespace-only; keep the row as a candidate when its score is at
least the relevance threshold 30.  Category, grouping and demographic values
are read from their own fixed columns. -/
def scan (query : String) (cat grp dem col : Nat) (role : String) :
    List (List String) → Nat → List Candidate
  | [], _ => []
  | row :: rest, i =>
    let cell := row.getD col ""
    let tail := scan query cat grp dem col role rest (i + 1)
    if isBlank cell = false ∧ 30 ≤ score cell query then
      { category := row.getD cat "", grouping := row.getD grp "",
        demographic := row.getD dem "", matchedText := cell,
        matchedColumn := role, score := score cell query, row := i } :: tail
    else tail

/-- The candidates found in one column role, over all data rows. -/
def candidatesFor (query : String) (cat grp dem : Nat) (col : Nat)
    (role : String) (rows : List (List String)) : List Candidate :=
  scan query cat grp dem col role rows 0

/-- Modelled from the spec: the short-circuiting column search of the
Pathway Resolver (spec §4.1 step 3), absent from the repository source
files — priority order Description → Demographic → Grouping → Category,
stopping at the first column that yields at least one candidate. -/
def search (query : String) (cat grp dem des : Nat)
    (rows : List (List String)) : Option (String × List Candidate) :=
  let cDes := candidatesFor query cat grp dem des "Description" rows
  if cDes ≠ [] then some ("Description", cDes)
  else
    let cDem := candidatesFor query cat grp dem dem "Demographic" rows
    if cDem ≠ [] then some ("Demographic", cDem)
    else
      let cGrp := candidatesFor query cat grp dem grp "Grouping" rows
      if cGrp ≠ [] then some ("Grouping", cGrp)
      else
        let cCat := candidatesFor query cat grp dem cat "Category" rows
        if cCat ≠ [] then some ("Category", cCat) else none

/-- The comparison used to rank candidates: score descending.  A stable
insertion sort along this relation keeps the original row order on ties. -/
def candLE (a b : Candidate) : Prop :=
  b.score ≤ a.score

instance : DecidableRel candLE := fun a b =>
  inferInstanceAs (Decidable (b.score ≤ a.score))

/-- Modelled from the spec: ranking (spec §4.1 step 4) — stable sort by
score descending, then take at most the top 3. -/
def rankTop (cands : List Candidate) : List Candidate :=
  (List.insertionSort candLE cands).take 3

/-- The score of the top-ranked candidate (0 on an empty list). -/
def topScore : List Candidate → ℚ
  | [] => 0
  | c :: _ => c.score

/-- Modelled from the spec: confidence labelling (spec §4.1 step 5) —
at least 80 gives "High", at least 60 gives "Medium", otherwise "Low". -/
def confidenceFor (s : ℚ) : String :=
  if 80 ≤ s then "High" else if 60 ≤ s then "Medium" else "Low"

/-- The suggestions carried by the no-match outcome (spec §7). -/
def noMatchSuggestions : List String :=
  ["Try broader search terms", "Check spelling of location names",
   "Use demographic categories like age, income, household"]

/-- Modelled from the spec: the column-priority Pathway Resolver
`resolve(query, dataset)` (spec §4.1), absent from the repository source
files.  Step 1 resolves the four required columns and fails fast naming the
missing ones; an empty dataset gives the distinct no-data outcome; otherwise
the prioritized column search either yields a ranked, confidence-labelled
match list or the no-match outcome with suggestions. -/
def resolve (query : String) (d : Dataset) : ResolutionResult :=
  match findRole d.headers "category", findRole d.headers "grouping",
      findRole d.headers "demographic", findRole d.headers "description" with
  | some cat, some grp, some dem, some des =>
    if d.rows = [] then .noData
    else
      match search query cat grp dem des d.rows with
      | some (role, cands) =>
        .matches role (rankTop cands) (confidenceFor (topScore (rankTop cands)))
      | none => .noMatch noMatchSuggestions
  | _, _, _, _ => .configError (missingColumns d.headers)

/-- The ordering guaranteed for the ranked output: scores descend, and on a
tie the earlier candidate keeps the earlier (smaller) row position. -/
def rankedRel (a b : Candidate) : Prop :=
  b.score ≤ a.score ∧ (a.score = b.score → a.row < b.row)

/-- The spec's scenario dataset: one row of the four-column sheet. -/
def specDataset : Dataset :=
  { headers := ["Category", "Grouping", "Demographic", "Description"],
    rows := [["Auto", "Vehicle Owners", "Age 25-34",
              "Car enthusiasts interested in performance vehicles"]] }

/-- The candidate the scenario dataset produces for "car enthusiasts". -/
def specCandidate : Candidate :=
  { category := "Auto", grouping := "Vehicle Owners", demographic := "Age 25-34",
    matchedText := "Car enthusiasts interested in performance vehicles",
    matchedColumn := "Description", score := 100, row := 0 }

/-- The spec's third scenario: a header row missing the Demographic role. -/
def specBadDataset : Dataset :=
  { headers := ["Category", "Grouping", "Description"],
    rows := [["Auto", "Vehicle Owners",
              "Car enthusiasts interested in performance vehicles"]] }

/-- A well-headed dataset with no data rows. -/
def specEmptyDataset : Dataset :=
  { headers := ["Category", "Grouping", "Demographic", "Description"], rows := [] }

end Resolver

/-! ## The global-scoring tool of `src/tools/fetch-geotargeting-tool.js` -/

namespace Tool

/-- `row[colIndex] || ''` — cell access that falls back to the empty string
when the (possibly ragged) row is shorter than the header row. -/
def cellAt (row : List String) (i : Nat) : String :=
  row.getD i ""

/-- `const geoKeywords = ['city', 'state', 'zip', 'county', 'region', 'area',
'district']` (line 114). -/
def geoKeywords : List String :=
  ["city", "state", "zip", "county", "region", "area", "district"]

/-- `const demoKeywords = ['age', 'income', 'household', 'population',
'gender', 'education']` (line 115). -/
def demoKeywords : List String :=
  ["age", "income", "household", "population", "gender", "education"]

/-- The per-cell increment of the first `headers.forEach` loop (lines
79–111): +5 for each query search term contained in the cell, +8 for each
location term, +8 for each demographic term, and +12 when the cell contains
the whole lowercased query. -/
def cellScore (searchTerms locTerms demoTerms : List String) (queryLower cell : String) : Nat :=
  5 * (searchTerms.filter (fun t => containsStr cell t)).length
    + 8 * (locTerms.filter (fun t => containsStr cell t)).length
    + 8 * (demoTerms.filter (fun t => containsStr cell t)).length
    + (if containsStr cell queryLower then 12 else 0)

/-- The match-detail strings the same loop pushes, in push order. -/
def cellDetails (searchTerms locTerms demoTerms : List String)
    (queryLower cell header : String) : List String :=
  (searchTerms.filter (fun t => containsStr cell t)).map
      (fun t => "\"" ++ t ++ "\" found in " ++ header)
    ++ (locTerms.filter (fun t => containsStr cell t)).map
      (fun t => "Location \"" ++ t ++ "\" found in " ++ header)
    ++ (demoTerms.filter (fun t => containsStr cell t)).map
      (fun t => "Demographic \"" ++ t ++ "\" found in " ++ header)
    ++ (if containsStr cell queryLower then ["Exact query match in " ++ header] else [])

/-- The first `headers.forEach((header, colIndex) => ...)` loop (lines
79–111): walk the header row with its column index, lowercase each cell of
the data row, and accumulate the score and the match details. -/
def matchLoop (searchTerms locTerms demoTerms : List String) (queryLower : String)
    (row : List String) : List String → Nat → Nat × List String
  | [], _ => (0, [])
  | header :: hs, i =>
    let cell := lowerStr (cellAt row i)
    let rest := matchLoop searchTerms locTerms demoTerms queryLower row hs (i + 1)
    (cellScore searchTerms locTerms demoTerms queryLower cell + rest.1,
     cellDetails searchTerms locTerms demoTerms queryLower cell header ++ rest.2)

/-- The second `headers.forEach` loop (lines 117–128): +3 when a header
contains a geographic keyword and the row's cell there is truthy
(non-empty), and +3 likewise for demographic keywords. -/
def boostLoop (row : List String) : List String → Nat → Nat
  | [], _ => 0
  | header :: hs, i =>
    let headerLower := lowerStr header
    let cell := lowerStr (cellAt row i)
    (if geoKeywords.any (fun k => containsStr headerLower k) ∧ cell ≠ "" then 3 else 0)
      + (if demoKeywords.any (fun k => containsStr headerLower k) ∧ cell ≠ "" then 3 else 0)
      + boostLoop row hs (i + 1)

/-- `headers.forEach((header, i) => { rowObject[header] = row[i] || ''; })`
(lines 74–76), as an association list in header order.  (The JS object
keeps the last value for a duplicated header name; the association list
keeps both entries — only lookup order differs, not totality.) -/
def rowObject (row : List String) : List String → Nat → List (String × String)
  | [], _ => []
  | header :: hs, i => (header, cellAt row i) :: rowObject row hs (i + 1)

/-- One entry of `scoredResults` (lines 130–137). -/
structure ScoredRow where
  data : List (String × String)
  score : Nat
  matchDetails : List String
  rowIndex : Nat
deriving DecidableEq, Repr

/-- The `data.forEach((row, index) => ...)` loop (lines 68–138): score every
data row and keep it when its score is positive, recording `index + 2` as
its sheet row number. -/
def scoreRows (searchTerms locTerms demoTerms : List String) (queryLower : String)
    (headers : List String) : List (List String) → Nat → List ScoredRow
  | [], _ => []
  | row :: rest, index =>
    let s := (matchLoop searchTerms locTerms demoTerms queryLower row headers 0).1
      + boostLoop row headers 0
    let tail := scoreRows searchTerms locTerms demoTerms queryLower headers rest (index + 1)
    if 0 < s then
      { data := rowObject row headers 0, score := s,
        matchDetails := (matchLoop searchTerms locTerms demoTerms queryLower row headers 0).2,
        rowIndex := index + 2 } :: tail
    else tail

/-- `(a, b) => b.score - a.score` — JS `sort` is stable, so the sort keeps
the original order between equal scores. -/
def rowLE (a b : ScoredRow) : Prop :=
  b.score ≤ a.score

instance : DecidableRel rowLE := fun a b =>
  inferInstanceAs (Decidable (b.score ≤ a.score))

/-- The tool's outcome objects: the four `return` shapes of `execute`. -/
inductive ToolOutcome where
  | noDataOut (message : String) : ToolOutcome
  | noMatchOut (message : String) (suggestions : List String) : ToolOutcome
  | okOut (summary : String) (totalMatches : Nat) (query : String)
      (rawData : List ScoredRow) : ToolOutcome
  | errorOut (message : String) (suggestions : List String) : ToolOutcome
deriving DecidableEq, Repr

/-- The `success` flag of each return shape: `false` for the no-data return
(lines 50–55) and the catch return (lines 181–189), `true` otherwise. -/
def ToolOutcome.success : ToolOutcome → Bool
  | .noDataOut _ => false
  | .errorOut _ _ => false
  | .noMatchOut _ _ => true
  | .okOut _ _ _ _ => true

/-- The suggestions of the no-match return (lines 149–153). -/
def okSuggestions : List String :=
  ["Try broader search terms", "Check spelling of location names",
   "Use demographic categories like \"age\", \"income\", \"household\""]

/-- The suggestions of the catch-block return (lines 184–188). -/
def errSuggestions : List String :=
  ["Check Google Sheets API credentials",
   "Verify GOOGLE_SHEET_ID environment variable",
   "Ensure sheet permissions are set correctly"]

/-- The body of `execute` after a successful fetch (lines 49–177): empty
sheet check, term extraction, row scoring, stable sort, top five.  The
human-readable `results` rendering of `rawData` (lines 158–166) is
presentation-only and is not modelled. -/
def okRun (rows : List (List String)) (query : String)
    (location demographic : Option String) : ToolOutcome :=
  match rows with
  | [] => .noDataOut "No data found in the Google Sheet"
  | headers :: data =>
    let searchTerms := (splitSpaces (lowerStr query)).filter (fun t => t.length > 2)
    let locTerms := match location with
      | some l => splitSpaces (lowerStr l)
      | none => []
    let demoTerms := match demographic with
      | some dm => splitSpaces (lowerStr dm)
      | none => []
    let scoredResults := scoreRows searchTerms locTerms demoTerms (lowerStr query)
      headers data 0
    let topResults := (List.insertionSort rowLE scoredResults).take 5
    match topResults with
    | [] =>
      .noMatchOut ("No relevant data found for \"" ++ query
        ++ "\". Try different search terms or check the sheet contents.") okSuggestions
    | top :: rest =>
      .okOut ("Found " ++ toString (top :: rest).length ++ " relevant results for \""
          ++ query ++ "\""
          ++ (match location with | some l => " in " ++ l | none => "")
          ++ (match demographic with
              | some dm => " for " ++ dm ++ " demographics"
              | none => "")
          ++ ". Top match has confidence score of " ++ toString top.score ++ ".")
        scoredResults.length query (top :: rest)

/-- `execute` (lines 25–191): the dataset fetch is the tool's only fallible
collaborator, so it enters the model as an `Except` value; a fetch failure
lands in the catch block (lines 179–190), which returns `success: false`
with the underlying message attached — the fetch is attempted exactly once,
with no retry. -/
def executeTool (fetched : Except String (List (List String))) (query : String)
    (location demographic : Option String) : ToolOutcome :=
  match fetched with
  | .error e => .errorOut ("Error accessing Google Sheet: " ++ e) errSuggestions
  | .ok rows => okRun rows query location demographic

end Tool

/-! ## Properties of the Pathway Resolver -/

namespace Resolver

/-- `mkRat (m * 80) t` is the rational `(m / t) * 80`. -/
lemma mkRat_mul80 (m t : Nat) : (mkRat (m * 80) t : ℚ) = (m : ℚ) / (t : ℚ) * 80 := by
  rw [Rat.mkRat_eq_div]
  push_cast
  ring

lemma score_eq_scoreRef (c q : String) : score c q = scoreRef c q := by
  unfold score scoreRef
  by_cases hex : containsStr (lowerStr c) (lowerStr q) = true
  · simp [hex]
  · simp only [hex, if_false, Bool.false_eq_true]
    by_cases hm :
        0 < ((qualifyingWords q).filter (fun w => containsStr (lowerStr c) w)).length
    · have hne : (qualifyingWords q).filter (fun w => containsStr (lowerStr c) w) ≠ [] := by
        intro h
        rw [h] at hm
        exact absurd hm (by simp)
      have hws : qualifyingWords q ≠ [] := by
        intro h
        exact hne (by simp [h])
      rw [if_pos hm, if_neg (by simp [hne, hws]), mkRat_mul80]
    · have h0 : ((qualifyingWords q).filter (fun w => containsStr (lowerStr c) w)).length = 0 :=
        Nat.eq_zero_of_not_pos hm
      rw [List.length_eq_zero] at h0
      rw [if_neg hm, if_pos (Or.inr h0)]

lemma score_bounds (c q : String) : 0 ≤ score c q ∧ score c q ≤ 100 := by
  unfold score
  by_cases hex : containsStr (lowerStr c) (lowerStr q) = true
  · simp [hex]
  · simp only [hex, if_false, Bool.false_eq_true]
    by_cases hm :
        0 < ((qualifyingWords q).filter (fun w => containsStr (lowerStr c) w)).length
    · rw [if_pos hm, mkRat_mul80]
      have hle : ((qualifyingWords q).filter (fun w => containsStr (lowerStr c) w)).length ≤
          (qualifyingWords q).length :=
        List.length_filter_le _ _
      have ht : (0 : ℚ) < ((qualifyingWords q).length : ℚ) := by
        exact_mod_cast Nat.lt_of_lt_of_le hm hle
      have hdiv :
          (((qualifyingWords q).filter (fun w => containsStr (lowerStr c) w)).length : ℚ) /
            ((qualifyingWords q).length : ℚ) ≤ 1 :=
        (div_le_one ht).mpr (by exact_mod_cast hle)
      constructor
      · positivity
      · nlinarith
    · rw [if_neg hm]
      norm_num

/-- **C1**: the score function agrees with the spec's reference definition
(exact contiguous containment of the lowercased query scores 100, otherwise
matched qualifying words / all qualifying words × 80, otherwise 0), every
score lies in [0, 100], and the scenario row's Description cell scores
exactly 100 against the query "car enthusiasts". -/
theorem score_matches_reference :
    (∀ cellText query, score cellText query = scoreRef cellText query) ∧
    (∀ cellText query, 0 ≤ score cellText query ∧ score cellText query ≤ 100) ∧
    score "Car enthusiasts interested in performance vehicles" "car enthusiasts" = 100 :=
  ⟨score_eq_scoreRef, score_bounds, by decide⟩

lemma scan_row_ge {q : String} {cat grp dem col : Nat} {role : String} :
    ∀ (rows : List (List String)) (i : Nat) (c : Candidate),
      c ∈ scan q cat grp dem col role rows i → i ≤ c.row := by
  intro rows
  induction rows with
  | nil => intro i c h; simp [scan] at h
  | cons row rest ih =>
    intro i c h
    rw [scan] at h
    split at h
    · rcases List.mem_cons.mp h with h | h
      · subst h; exact Nat.le_refl i
      · exact Nat.le_of_succ_le (ih (i + 1) c h)
    · exact Nat.le_of_succ_le (ih (i + 1) c h)

lemma scan_row_pairwise {q : String} {cat grp dem col : Nat} {role : String} :
    ∀ (rows : List (List String)) (i : Nat),
      (scan q cat grp dem col role rows i).Pairwise (fun a b => a.row < b.row) := by
  intro rows
  induction rows with
  | nil => intro i; simp [scan]
  | cons row rest ih =>
    intro i
    rw [scan]
    split
    · refine List.Pairwise.cons ?_ (ih (i + 1))
      intro c hc
      exact Nat.lt_of_lt_of_le (Nat.lt_succ_self i) (scan_row_ge rest (i + 1) c hc)
    · exact ih (i + 1)

lemma scan_mem_props {q : String} {cat grp dem col : Nat} {role : String} :
    ∀ (rows : List (List String)) (i : Nat) (c : Candidate),
      c ∈ scan q cat grp dem col role rows i →
        isBlank c.matchedText = false ∧ 30 ≤ c.score ∧
          c.score = score c.matchedText q ∧ c.matchedColumn = role := by
  intro rows
  induction rows with
  | nil => intro i c h; simp [scan] at h
  | cons row rest ih =>
    intro i c h
    rw [scan] at h
    split at h
    · rename_i hcond
      rcases List.mem_cons.mp h with h | h
      · subst h
        exact ⟨by simpa using hcond.1, hcond.2, rfl, rfl⟩
      · exact ih (i + 1) c h
    · exact ih (i + 1) c h

lemma search_some_shape {q : String} {cat grp dem des : Nat} {rows : List (List String)}
    {p : String × List Candidate} (h : search q cat grp dem des rows = some p) :
    (p = ("Description", candidatesFor q cat grp dem des "Description" rows) ∧
      candidatesFor q cat grp dem des "Description" rows ≠ []) ∨
    (p = ("Demographic", candidatesFor q cat grp dem dem "Demographic" rows) ∧
      candidatesFor q cat grp dem des "Description" rows = [] ∧
      candidatesFor q cat grp dem dem "Demographic" rows ≠ []) ∨
    (p = ("Grouping", candidatesFor q cat grp dem grp "Grouping" rows) ∧
      candidatesFor q cat grp dem des "Description" rows = [] ∧
      candidatesFor q cat grp dem dem "Demographic" rows = [] ∧
      candidatesFor q cat grp dem grp "Grouping" rows ≠ []) ∨
    (p = ("Category", candidatesFor q cat grp dem cat "Category" rows) ∧
      candidatesFor q cat grp dem des "Description" rows = [] ∧
      candidatesFor q cat grp dem dem "Demographic" rows = [] ∧
      candidatesFor q cat grp dem grp "Grouping" rows = [] ∧
      candidatesFor q cat grp dem cat "Category" rows ≠ []) := by
  simp only [search] at h
  split_ifs at h with h1 h2 h3 h4 <;> simp only [Option.some.injEq] at h
  · exact Or.inl ⟨h.symm, h1⟩
  · exact Or.inr (Or.inl ⟨h.symm, not_ne_iff.mp h1, h2⟩)
  · exact Or.inr (Or.inr (Or.inl ⟨h.symm, not_ne_iff.mp h1, not_ne_iff.mp h2, h3⟩))
  · exact Or.inr (Or.inr (Or.inr ⟨h.symm, not_ne_iff.mp h1, not_ne_iff.mp h2,
      not_ne_iff.mp h3, h4⟩))

lemma search_none_iff {q : String} {cat grp dem des : Nat} {rows : List (List String)} :
    search q cat grp dem des rows = none ↔
      candidatesFor q cat grp dem des "Description" rows = [] ∧
      candidatesFor q cat grp dem dem "Demographic" rows = [] ∧
      candidatesFor q cat grp dem grp "Grouping" rows = [] ∧
      candidatesFor q cat grp dem cat "Category" rows = [] := by
  simp only [search]
  split_ifs with h1 h2 h3 h4 <;>
    simp_all [not_ne_iff]

lemma resolve_of_cols {q : String} {d : Dataset} {cat grp dem des : Nat}
    (hc : findRole d.headers "category" = some cat)
    (hg : findRole d.headers "grouping" = some grp)
    (hd : findRole d.headers "demographic" = some dem)
    (hs : findRole d.headers "description" = some des) :
    resolve q d =
      if d.rows = [] then .noData
      else
        match search q cat grp dem des d.rows with
        | some (role, cands) =>
          .matches role (rankTop cands) (confidenceFor (topScore (rankTop cands)))
        | none => .noMatch noMatchSuggestions := by
  unfold resolve
  rw [hc, hg, hd, hs]

lemma orderedInsert_stable (a : Candidate) :
    ∀ l : List Candidate, l.Pairwise rankedRel → (∀ b ∈ l, a.row < b.row) →
      (List.orderedInsert candLE a l).Pairwise rankedRel := by
  intro l
  induction l with
  | nil => intro _ _; simp [List.orderedInsert, rankedRel]
  | cons b t ih =>
    intro hp hrow
    rw [List.orderedInsert]
    by_cases hab : candLE a b
    · rw [if_pos hab]
      refine List.Pairwise.cons ?_ hp
      intro x hx
      rcases List.mem_cons.mp hx with hx | hx
      · subst hx
        exact ⟨hab, fun _ => hrow x (List.mem_cons_self _ _)⟩
      · have hbx := (List.pairwise_cons.mp hp).1 x hx
        exact ⟨le_trans hbx.1 hab, fun _ => hrow x (List.mem_cons.mpr (Or.inr hx))⟩
    · rw [if_neg hab]
      have hlt : a.score < b.score := lt_of_not_le hab
      refine List.Pairwise.cons ?_
        (ih (List.pairwise_cons.mp hp).2
          (fun x hx => hrow x (List.mem_cons.mpr (Or.inr hx))))
      intro x hx
      rcases (List.mem_orderedInsert candLE).mp hx with hx | hx
      · subst hx
        exact ⟨le_of_lt hlt, fun he => absurd he (by
          intro he
          exact absurd he.symm (ne_of_lt hlt))⟩
      · exact (List.pairwise_cons.mp hp).1 x hx

lemma insertionSort_stable :
    ∀ l : List Candidate, l.Pairwise (fun a b => a.row < b.row) →
      (List.insertionSort candLE l).Pairwise rankedRel := by
  intro l
  induction l with
  | nil => intro _; simp [List.insertionSort]
  | cons a t ih =>
    intro hp
    rw [List.insertionSort]
    refine orderedInsert_stable a _ (ih (List.pairwise_cons.mp hp).2) ?_
    intro b hb
    exact (List.pairwise_cons.mp hp).1 b ((List.mem_insertionSort candLE).mp hb)

lemma rankTop_length (cands : List Candidate) : (rankTop cands).length ≤ 3 :=
  List.length_take_le 3 (List.insertionSort candLE cands)

lemma rankTop_pairwise {cands : List Candidate}
    (h : cands.Pairwise (fun a b => a.row < b.row)) :
    (rankTop cands).Pairwise rankedRel :=
  ((insertionSort_stable cands h).sublist (List.take_sublist 3 _))

lemma rankTop_ne_nil {cands : List Candidate} (h : cands ≠ []) :
    rankTop cands ≠ [] := by
  have hlen : 0 < cands.length := List.length_pos.mpr h
  have : 0 < (rankTop cands).length := by
    simp [rankTop, List.length_take, List.length_insertionSort]
    omega
  exact List.length_pos.mp this

lemma rankTop_mem {cands : List Candidate} {c : Candidate}
    (h : c ∈ rankTop cands) : c ∈ cands :=
  (List.mem_insertionSort candLE).mp ((List.take_sublist 3 _).subset h)

lemma pathways_shape (q : String) (d : Dataset) :
    (resolve q d).pathways = [] ∨
    ∃ cat grp dem col role, (resolve q d).pathways =
      rankTop (candidatesFor q cat grp dem col role d.rows) := by
  cases hc : findRole d.headers "category" with
  | none => left; simp [resolve, hc, ResolutionResult.pathways]
  | some cat =>
  cases hg : findRole d.headers "grouping" with
  | none => left; simp [resolve, hc, hg, ResolutionResult.pathways]
  | some grp =>
  cases hd : findRole d.headers "demographic" with
  | none => left; simp [resolve, hc, hg, hd, ResolutionResult.pathways]
  | some dem =>
  cases hs : findRole d.headers "description" with
  | none => left; simp [resolve, hc, hg, hd, hs, ResolutionResult.pathways]
  | some des =>
  rw [resolve_of_cols hc hg hd hs]
  by_cases hrows : d.rows = []
  · rw [if_pos hrows]; left; rfl
  · rw [if_neg hrows]
    cases hsr : search q cat grp dem des d.rows with
    | none => left; rfl
    | some p =>
      rcases p with ⟨role, cands⟩
      right
      rcases search_some_shape hsr with ⟨he, _⟩ | ⟨he, _, _⟩ | ⟨he, _, _, _⟩ | ⟨he, _, _, _, _⟩ <;>
        rw [Prod.mk.injEq] at he
      · exact ⟨cat, grp, dem, des, "Description", by simp [he.2, ResolutionResult.pathways]⟩
      · exact ⟨cat, grp, dem, dem, "Demographic", by simp [he.2, ResolutionResult.pathways]⟩
      · exact ⟨cat, grp, dem, grp, "Grouping", by simp [he.2, ResolutionResult.pathways]⟩
      · exact ⟨cat, grp, dem, cat, "Category", by simp [he.2, ResolutionResult.pathways]⟩

lemma resolve_matches_inv {q : String} {d : Dataset} {role : String}
    {ranked : List Candidate} {conf : String}
    (h : resolve q d = .matches role ranked conf) :
    ∃ cat grp dem des cands,
      findRole d.headers "category" = some cat ∧
      findRole d.headers "grouping" = some grp ∧
      findRole d.headers "demographic" = some dem ∧
      findRole d.headers "description" = some des ∧
      d.rows ≠ [] ∧
      search q cat grp dem des d.rows = some (role, cands) ∧
      ranked = rankTop cands ∧ cands ≠ [] ∧
      conf = confidenceFor (topScore ranked) := by
  cases hc : findRole d.headers "category" with
  | none => rw [resolve, hc] at h; exact absurd h (by simp)
  | some cat =>
  cases hg : findRole d.headers "grouping" with
  | none => rw [resolve, hc, hg] at h; exact absurd h (by simp)
  | some grp =>
  cases hd : findRole d.headers "demographic" with
  | none => rw [resolve, hc, hg, hd] at h; exact absurd h (by simp)
  | some dem =>
  cases hs : findRole d.headers "description" with
  | none => rw [resolve, hc, hg, hd, hs] at h; exact absurd h (by simp)
  | some des =>
  rw [resolve_of_cols hc hg hd hs] at h
  by_cases hrows : d.rows = []
  · rw [if_pos hrows] at h; exact absurd h (by simp)
  · rw [if_neg hrows] at h
    cases hsr : search q cat grp dem des d.rows with
    | none => rw [hsr] at h; exact absurd h (by simp)
    | some p =>
      rcases p with ⟨role0, cands⟩
      rw [hsr] at h
      injection h with h1 h2 h3
      have hne : cands ≠ [] := by
        rcases search_some_shape hsr with ⟨he, hx⟩ | ⟨he, _, hx⟩ | ⟨he, _, _, hx⟩ |
            ⟨he, _, _, _, hx⟩ <;>
          rw [Prod.mk.injEq] at he <;> rw [he.2] <;> exact hx
      subst h1
      exact ⟨cat, grp, dem, des, cands, rfl, rfl, rfl, rfl, hrows, hsr, h2.symm, hne,
        by rw [← h3, h2]⟩

/-- **C3**: for every query and dataset the returned pathway list has at
most 3 entries and is pairwise ordered so that scores descend and, on equal
scores, the original row order is kept (the stable descending sort). -/
theorem resolve_ranked_pathways (q : String) (d : Dataset) :
    (resolve q d).pathways.length ≤ 3 ∧
      (resolve q d).pathways.Pairwise rankedRel := by
  rcases pathways_shape q d with h | ⟨cat, grp, dem, col, role, h⟩
  · rw [h]; exact ⟨by simp, List.Pairwise.nil⟩
  · rw [h]
    exact ⟨rankTop_length _, rankTop_pairwise (scan_row_pairwise _ 0)⟩

/-- **C2**: with all four required columns resolved, the result's matched
column is one of the four roles or "none"; all candidates of a match carry
the single matched role; a match on a later-priority role forces every
earlier-priority column to have yielded no candidate (the search
short-circuits in the order Description → Demographic → Grouping →
Category); and a non-empty Description candidate set forces a Description
match. -/
theorem resolve_column_priority (q : String) (d : Dataset) (cat grp dem des : Nat)
    (hc : findRole d.headers "category" = some cat)
    (hg : findRole d.headers "grouping" = some grp)
    (hd : findRole d.headers "demographic" = some dem)
    (hs : findRole d.headers "description" = some des) :
    (resolve q d).matchedColumn ∈
        ["Description", "Demographic", "Grouping", "Category", "none"] ∧
    (∀ role ranked conf, resolve q d = .matches role ranked conf →
      (∀ c ∈ ranked, c.matchedColumn = role) ∧
      (role = "Demographic" →
        candidatesFor q cat grp dem des "Description" d.rows = []) ∧
      (role = "Grouping" →
        candidatesFor q cat grp dem des "Description" d.rows = [] ∧
        candidatesFor q cat grp dem dem "Demographic" d.rows = []) ∧
      (role = "Category" →
        candidatesFor q cat grp dem des "Description" d.rows = [] ∧
        candidatesFor q cat grp dem dem "Demographic" d.rows = [] ∧
        candidatesFor q cat grp dem grp "Grouping" d.rows = [])) ∧
    (d.rows ≠ [] → candidatesFor q cat grp dem des "Description" d.rows ≠ [] →
      ∃ ranked conf, resolve q d = .matches "Description" ranked conf) := by
  rw [resolve_of_cols hc hg hd hs]
  by_cases hrows : d.rows = []
  · rw [if_pos hrows]
    refine ⟨by simp [ResolutionResult.matchedColumn], ?_, ?_⟩
    · intro role ranked conf h
      exact absurd h (by simp)
    · intro hne _
      exact absurd hrows hne
  · rw [if_neg hrows]
    cases hsr : search q cat grp dem des d.rows with
    | none =>
      have hall := search_none_iff.mp hsr
      refine ⟨by simp [ResolutionResult.matchedColumn], ?_, ?_⟩
      · intro role ranked conf h
        exact absurd h (by simp)
      · intro _ hne
        exact absurd hall.1 hne
    | some p =>
      rcases p with ⟨role0, cands⟩
      rcases search_some_shape hsr with ⟨he, hx⟩ | ⟨he, h1, hx⟩ | ⟨he, h1, h2, hx⟩ |
          ⟨he, h1, h2, h3, hx⟩ <;> rw [Prod.mk.injEq] at he <;>
        rcases he with ⟨hrole, hcands⟩ <;> subst hrole <;> subst hcands
      · refine ⟨by simp [ResolutionResult.matchedColumn], ?_, ?_⟩
        · intro role ranked conf h
          injection h with e1 e2 e3
          subst e1
          refine ⟨?_, ?_, ?_, ?_⟩
          · intro c hcmem
            rw [← e2] at hcmem
            exact (scan_mem_props _ 0 c (rankTop_mem hcmem)).2.2.2
          · intro hr; exact absurd hr.symm (by decide)
          · intro hr; exact absurd hr.symm (by decide)
          · intro hr; exact absurd hr.symm (by decide)
        · intro _ _
          exact ⟨_, _, rfl⟩
      · refine ⟨by simp [ResolutionResult.matchedColumn], ?_, ?_⟩
        · intro role ranked conf h
          injection h with e1 e2 e3
          subst e1
          refine ⟨?_, fun _ => h1, ?_, ?_⟩
          · intro c hcmem
            rw [← e2] at hcmem
            exact (scan_mem_props _ 0 c (rankTop_mem hcmem)).2.2.2
          · intro hr; exact absurd hr.symm (by decide)
          · intro hr; exact absurd hr.symm (by decide)
        · intro _ hne
          exact absurd h1 hne
      · refine ⟨by simp [ResolutionResult.matchedColumn], ?_, ?_⟩
        · intro role ranked conf h
          injection h with e1 e2 e3
          subst e1
          refine ⟨?_, ?_, fun _ => ⟨h1, h2⟩, ?_⟩
          · intro c hcmem
            rw [← e2] at hcmem
            exact (scan_mem_props _ 0 c (rankTop_mem hcmem)).2.2.2
          · intro hr; exact absurd hr.symm (by decide)
          · intro hr; exact absurd hr.symm (by decide)
        · intro _ hne
          exact absurd h1 hne
      · refine ⟨by simp [ResolutionResult.matchedColumn], ?_, ?_⟩
        · intro role ranked conf h
          injection h with e1 e2 e3
          subst e1
          refine ⟨?_, ?_, ?_, fun _ => ⟨h1, h2, h3⟩⟩
          · intro c hcmem
            rw [← e2] at hcmem
            exact (scan_mem_props _ 0 c (rankTop_mem hcmem)).2.2.2
          · intro hr; exact absurd hr.symm (by decide)
          · intro hr; exact absurd hr.symm (by decide)
        · intro _ hne
          exact absurd h1 hne

/-- **C6**: whenever resolution produces a match, the confidence label
derives from the top candidate's score exactly: "High" iff ≥ 80, "Medium"
iff in [60, 80), and "Low" otherwise. -/
theorem resolve_confidence (q : String) (d : Dataset) (role : String)
    (ranked : List Candidate) (conf : String)
    (h : resolve q d = .matches role ranked conf) :
    ∃ top rest, ranked = top :: rest ∧
      (conf = "High" ↔ 80 ≤ top.score) ∧
      (conf = "Medium" ↔ 60 ≤ top.score ∧ top.score < 80) ∧
      (conf = "Low" ↔ top.score < 60) := by
  rcases resolve_matches_inv h with
    ⟨cat, grp, dem, des, cands, _, _, _, _, _, _, hranked, hne, hconf⟩
  have hnil : ranked ≠ [] := by
    rw [hranked]
    exact rankTop_ne_nil hne
  cases hr : ranked with
  | nil => exact absurd hr hnil
  | cons top rest =>
    refine ⟨top, rest, rfl, ?_⟩
    rw [hr] at hconf
    rw [hconf]
    unfold confidenceFor topScore
    by_cases h80 : 80 ≤ top.score
    · rw [if_pos h80]
      refine ⟨by simp [h80], ?_, ?_⟩
      · constructor
        · intro he; exact absurd he (by decide)
        · intro hx; linarith [hx.2]
      · constructor
        · intro he; exact absurd he (by decide)
        · intro hx; linarith
    · rw [if_neg h80]
      by_cases h60 : 60 ≤ top.score
      · rw [if_pos h60]
        refine ⟨?_, by simp [h60, lt_of_not_le h80], ?_⟩
        · constructor
          · intro he; exact absurd he (by decide)
          · intro hx; exact absurd hx h80
        · constructor
          · intro he; exact absurd he (by decide)
          · intro hx; linarith
      · rw [if_neg h60]
        refine ⟨?_, ?_, by simp [lt_of_not_le h60]⟩
        · constructor
          · intro he; exact absurd he (by decide)
          · intro hx; exact absurd hx h80
        · constructor
          · intro he; exact absurd he (by decide)
          · intro hx; exact absurd hx.1 h60

lemma scan_mem_row_iff {q : String} {cat grp dem col : Nat} {role : String} :
    ∀ (rows : List (List String)) (i j : Nat), j < rows.length →
      ((∃ c ∈ scan q cat grp dem col role rows i, c.row = i + j) ↔
        (isBlank ((rows.getD j []).getD col "") = false ∧
          30 ≤ score ((rows.getD j []).getD col "") q)) := by
  intro rows
  induction rows with
  | nil => intro i j hj; simp at hj
  | cons row rest ih =>
    intro i j hj
    cases j with
    | zero =>
      simp only [scan, List.getD_cons_zero]
      split
      · rename_i hcond
        constructor
        · intro _; exact hcond
        · intro _
          exact ⟨_, List.mem_cons_self _ _, by simp⟩
      · rename_i hcond
        constructor
        · rintro ⟨c, hcmem, hcrow⟩
          exfalso
          have := scan_row_ge rest (i + 1) c hcmem
          omega
        · intro hx; exact absurd hx hcond
    | succ j' =>
      have hj' : j' < rest.length := by simpa using hj
      simp only [scan, List.getD_cons_succ]
      split
      · constructor
        · rintro ⟨c, hcmem, hcrow⟩
          rcases List.mem_cons.mp hcmem with hcm | hcm
          · exfalso
            subst hcm
            simp only at hcrow
            omega
          · exact (ih (i + 1) j' hj').mp ⟨c, hcm, by omega⟩
        · intro hx
          rcases (ih (i + 1) j' hj').mpr hx with ⟨c, hcm, hcrow⟩
          exact ⟨c, List.mem_cons.mpr (Or.inr hcm), by omega⟩
      · constructor
        · rintro ⟨c, hcm, hcrow⟩
          exact (ih (i + 1) j' hj').mp ⟨c, hcm, by omega⟩
        · intro hx
          rcases (ih (i + 1) j' hj').mpr hx with ⟨c, hcm, hcrow⟩
          exact ⟨c, hcm, by omega⟩

/-- **C4**: a data row of the active column becomes a candidate exactly when
its cell there is neither empty nor whitespace-only and its score reaches
the threshold 30; and every pathway ever returned carries a score of at
least 30 from a non-blank cell. -/
theorem threshold_filter :
    (∀ (q : String) (cat grp dem col : Nat) (role : String)
      (rows : List (List String)) (i j : Nat), j < rows.length →
      ((∃ c ∈ scan q cat grp dem col role rows i, c.row = i + j) ↔
        (isBlank ((rows.getD j []).getD col "") = false ∧
          30 ≤ score ((rows.getD j []).getD col "") q))) ∧
    (∀ (q : String) (d : Dataset) (c : Candidate), c ∈ (resolve q d).pathways →
      30 ≤ c.score ∧ isBlank c.matchedText = false ∧
        c.score = score c.matchedText q) := by
  constructor
  · intro q cat grp dem col role rows i j hj
    exact scan_mem_row_iff rows i j hj
  · intro q d c hmem
    rcases pathways_shape q d with h | ⟨cat, grp, dem, col, role, h⟩
    · rw [h] at hmem; simp at hmem
    · rw [h] at hmem
      have hprops := scan_mem_props _ 0 c (rankTop_mem hmem)
      exact ⟨hprops.2.1, hprops.1, hprops.2.2.1⟩

/-- **C5**: whenever the header row leaves any required role unresolved, the
resolution is a configuration failure carrying exactly the unresolved role
names; it is not a success and carries no pathways. -/
theorem resolve_missing_columns (q : String) (d : Dataset)
    (hmiss : missingColumns d.headers ≠ []) :
    resolve q d = .configError (missingColumns d.headers) ∧
    (∀ r, r ∈ missingColumns d.headers ↔
      r ∈ requiredRoles ∧ findRole d.headers (lowerStr r) = none) ∧
    (resolve q d).success = false ∧ (resolve q d).pathways = [] := by
  have e1 : lowerStr "Category" = "category" := by decide
  have e2 : lowerStr "Grouping" = "grouping" := by decide
  have e3 : lowerStr "Demographic" = "demographic" := by decide
  have e4 : lowerStr "Description" = "description" := by decide
  have hmem : ∀ r, r ∈ missingColumns d.headers ↔
      r ∈ requiredRoles ∧ findRole d.headers (lowerStr r) = none := by
    intro r
    simp [missingColumns, List.mem_filter, Option.isNone_iff_eq_none]
  have hres : resolve q d = .configError (missingColumns d.headers) := by
    cases hc : findRole d.headers "category" with
    | none => simp [resolve, hc]
    | some cat =>
    cases hg : findRole d.headers "grouping" with
    | none => simp [resolve, hc, hg]
    | some grp =>
    cases hd : findRole d.headers "demographic" with
    | none => simp [resolve, hc, hg, hd]
    | some dem =>
    cases hs : findRole d.headers "description" with
    | none => simp [resolve, hc, hg, hd, hs]
    | some des =>
    exfalso
    apply hmiss
    simp [missingColumns, requiredRoles, List.filter, e1, e2, e3, e4, hc, hg, hd, hs]
  exact ⟨hres, hmem, by rw [hres]; rfl, by rw [hres]; rfl⟩

/-- **C7 counterexample**: the dataset with no rows at all (hence no data
rows) resolves to a configuration failure, not to the no-data outcome — the
fail-fast column resolution precedes the empty-dataset check. -/
theorem noData_counterexample :
    (Dataset.mk [] []).rows = [] ∧
    resolve "car enthusiasts" (Dataset.mk [] []) ≠ .noData := by
  exact ⟨rfl, by decide⟩

/-- **C7 (amended)**: once the four required columns resolve, a dataset with
no data rows yields the distinct no-data outcome, which is not a success and
differs from every no-match outcome. -/
theorem resolve_empty_dataset (q : String) (d : Dataset) (cat grp dem des : Nat)
    (hc : findRole d.headers "category" = some cat)
    (hg : findRole d.headers "grouping" = some grp)
    (hd : findRole d.headers "demographic" = some dem)
    (hs : findRole d.headers "description" = some des)
    (hrows : d.rows = []) :
    resolve q d = .noData ∧ (resolve q d).success = false ∧
    ∀ s, ResolutionResult.noData ≠ ResolutionResult.noMatch s := by
  have hres : resolve q d = .noData := by
    rw [resolve_of_cols hc hg hd hs, if_pos hrows]
  exact ⟨hres, by rw [hres]; rfl, fun s => by simp⟩

/-- **C8**: with the four required columns resolved and at least one data
row, resolution returns the no-match outcome exactly when all four columns —
Description, Demographic, Grouping and Category — yield no candidate at the
threshold; that outcome still signals success and carries non-empty
suggestions. -/
theorem resolve_no_match (q : String) (d : Dataset) (cat grp dem des : Nat)
    (hc : findRole d.headers "category" = some cat)
    (hg : findRole d.headers "grouping" = some grp)
    (hd : findRole d.headers "demographic" = some dem)
    (hs : findRole d.headers "description" = some des)
    (hrows : d.rows ≠ []) :
    ((resolve q d = .noMatch noMatchSuggestions) ↔
      (candidatesFor q cat grp dem des "Description" d.rows = [] ∧
       candidatesFor q cat grp dem dem "Demographic" d.rows = [] ∧
       candidatesFor q cat grp dem grp "Grouping" d.rows = [] ∧
       candidatesFor q cat grp dem cat "Category" d.rows = [])) ∧
    (∀ s, resolve q d = .noMatch s →
      s = noMatchSuggestions ∧ s ≠ [] ∧ (resolve q d).success = true) := by
  rw [resolve_of_cols hc hg hd hs, if_neg hrows]
  cases hsr : search q cat grp dem des d.rows with
  | none =>
    have hall := search_none_iff.mp hsr
    refine ⟨⟨fun _ => hall, fun _ => rfl⟩, ?_⟩
    intro s hs2
    injection hs2 with he
    refine ⟨he.symm, ?_, rfl⟩
    rw [← he]
    decide
  | some p =>
    rcases p with ⟨role0, cands⟩
    constructor
    · constructor
      · intro habs
        exact absurd habs (by simp)
      · intro hall
        exfalso
        rcases search_some_shape hsr with ⟨he, hx⟩ | ⟨he, _, hx⟩ | ⟨he, _, _, hx⟩ |
            ⟨he, _, _, _, hx⟩
        · exact hx hall.1
        · exact hx hall.2.1
        · exact hx hall.2.2.1
        · exact hx hall.2.2.2
    · intro s hs2
      exact absurd hs2 (by simp)

end Resolver

/-! ## Properties of the global-scoring tool -/

namespace Tool

lemma replicate_getD_empty : ∀ (k m : Nat), (List.replicate k "").getD m "" = "" := by
  intro k
  induction k with
  | zero => intro m; rfl
  | succ k ih =>
    intro m
    cases m with
    | zero => rfl
    | succ m =>
      simp only [List.replicate, List.getD_cons_succ]
      exact ih m

lemma cellAt_pad (row : List String) (k i : Nat) :
    cellAt (row ++ List.replicate k "") i = cellAt row i := by
  unfold cellAt
  by_cases h : i < row.length
  · exact List.getD_append _ _ _ _ h
  · have hle : row.length ≤ i := Nat.le_of_not_lt h
    rw [List.getD_eq_default row "" hle,
      List.getD_append_right row (List.replicate k "") "" i hle]
    exact replicate_getD_empty _ _

lemma matchLoop_pad (st lt dt : List String) (ql : String) (row : List String) (k : Nat) :
    ∀ (headers : List String) (i : Nat),
      matchLoop st lt dt ql (row ++ List.replicate k "") headers i =
        matchLoop st lt dt ql row headers i := by
  intro headers
  induction headers with
  | nil => intro i; rfl
  | cons h hs ih =>
    intro i
    simp only [matchLoop, cellAt_pad, ih]

lemma boostLoop_pad (row : List String) (k : Nat) :
    ∀ (headers : List String) (i : Nat),
      boostLoop (row ++ List.replicate k "") headers i = boostLoop row headers i := by
  intro headers
  induction headers with
  | nil => intro i; rfl
  | cons h hs ih =>
    intro i
    simp only [boostLoop, cellAt_pad, ih]

lemma rowObject_pad (row : List String) (k : Nat) :
    ∀ (headers : List String) (i : Nat),
      rowObject (row ++ List.replicate k "") headers i = rowObject row headers i := by
  intro headers
  induction headers with
  | nil => intro i; rfl
  | cons h hs ih =>
    intro i
    simp only [rowObject, cellAt_pad, ih]

/-- **C9**: a failing dataset fetch is caught, not rethrown: the tool
returns the error outcome — `success: false` with the underlying message
attached — and the single fetch outcome is consumed exactly once (the model
takes one `Except` value; there is no retry path). -/
theorem executeTool_fetch_error (e q : String) (loc dm : Option String) :
    executeTool (.error e) q loc dm =
      .errorOut ("Error accessing Google Sheet: " ++ e) errSuggestions ∧
    (executeTool (.error e) q loc dm).success = false :=
  ⟨rfl, rfl⟩

/-- **C10**: per-row scoring and row-object construction are total over
ragged rows — reading past the end of a row yields the empty string, so
padding a row with missing cells (modelled as trailing empty strings)
changes neither the match-loop score and details, nor the keyword boosts,
nor the constructed row object. -/
theorem ragged_rows_total :
    (∀ (row : List String) (i : Nat), row.length ≤ i → cellAt row i = "") ∧
    (∀ (st lt dt : List String) (ql : String) (row : List String) (k : Nat)
      (headers : List String) (i : Nat),
      matchLoop st lt dt ql (row ++ List.replicate k "") headers i =
        matchLoop st lt dt ql row headers i) ∧
    (∀ (row : List String) (k : Nat) (headers : List String) (i : Nat),
      boostLoop (row ++ List.replicate k "") headers i = boostLoop row headers i) ∧
    (∀ (row : List String) (k : Nat) (headers : List String) (i : Nat),
      rowObject (row ++ List.replicate k "") headers i = rowObject row headers i) :=
  ⟨fun row _ h => List.getD_eq_default row "" h,
   fun st lt dt ql row k headers i => matchLoop_pad st lt dt ql row k headers i,
   fun row k headers i => boostLoop_pad row k headers i,
   fun row k headers i => rowObject_pad row k headers i⟩

end Tool

/-! ## Concrete instantiations of the hypothesised theorems -/

namespace Resolver

/-- The column-priority theorem instantiated at the spec scenario. -/
theorem resolve_column_priority_witness :
    (resolve "car enthusiasts" specDataset).matchedColumn ∈
      ["Description", "Demographic", "Grouping", "Category", "none"] :=
  (resolve_column_priority "car enthusiasts" specDataset 0 1 2 3
    (by decide) (by decide) (by decide) (by decide)).1

/-- The threshold theorem instantiated at the spec scenario: row 0 is a
Description candidate, and the returned candidate scores at least 30. -/
theorem threshold_filter_witness :
    (∃ c ∈ scan "car enthusiasts" 0 1 2 3 "Description" specDataset.rows 0,
      c.row = 0 + 0) ∧ 30 ≤ specCandidate.score :=
  ⟨(threshold_filter.1 "car enthusiasts" 0 1 2 3 "Description" specDataset.rows 0 0
      (by decide)).mpr (by decide),
   (threshold_filter.2 "car enthusiasts" specDataset specCandidate (by decide)).1⟩

/-- The missing-column theorem instantiated at the spec's third scenario:
the header row without "Demographic" fails configuration, naming it. -/
theorem resolve_missing_columns_witness :
    resolve "car enthusiasts" specBadDataset =
      .configError (missingColumns specBadDataset.headers) ∧
    missingColumns specBadDataset.headers = ["Demographic"] :=
  ⟨(resolve_missing_columns "car enthusiasts" specBadDataset (by decide)).1, by decide⟩

/-- The confidence theorem instantiated at the spec scenario: score 100
labels "High". -/
theorem resolve_confidence_witness :
    ∃ top rest, [specCandidate] = top :: rest ∧
      ("High" = "High" ↔ 80 ≤ top.score) ∧
      ("High" = "Medium" ↔ 60 ≤ top.score ∧ top.score < 80) ∧
      ("High" = "Low" ↔ top.score < 60) :=
  resolve_confidence "car enthusiasts" specDataset "Description" [specCandidate] "High"
    (by decide)

/-- The empty-dataset theorem instantiated at a well-headed rowless sheet. -/
theorem resolve_empty_dataset_witness :
    resolve "car enthusiasts" specEmptyDataset = .noData ∧
    (resolve "car enthusiasts" specEmptyDataset).success = false ∧
    ∀ s, ResolutionResult.noData ≠ ResolutionResult.noMatch s :=
  resolve_empty_dataset "car enthusiasts" specEmptyDataset 0 1 2 3
    (by decide) (by decide) (by decide) (by decide) rfl

/-- The no-match theorem instantiated at the spec's second scenario: "xyz
nonsense" matches nothing in any of the four columns. -/
theorem resolve_no_match_witness :
    resolve "xyz nonsense" specDataset = .noMatch noMatchSuggestions :=
  ((resolve_no_match "xyz nonsense" specDataset 0 1 2 3
    (by decide) (by decide) (by decide) (by decide) (by decide)).1).mpr (by decide)

end Resolver

namespace Tool

/-- The raggedness theorem instantiated: reading column 5 of a one-cell row
yields the empty string. -/
theorem ragged_rows_total_witness : cellAt ["Auto"] 5 = "" :=
  ragged_rows_total.1 ["Auto"] 5 (by decide)

end Tool

end Geo
